import Mathlib

/-!
Verification of the mortgage-repayment calculator core
(`src/components/sideleft/ContainerLeft.vue`, rendered by
`src/components/sideright/ContainerRight.vue`).

Numeric model: JavaScript numbers are idealised as rationals, with the
distinguished non-number value `NaN` tracked explicitly (`JSNumber`).
`Math.pow` is modelled on integer exponents by rational `zpow`; the term
field is an `<input type="number">` with the default `step` of 1, so the
values that reach `calculate` through form submission are integer-valued,
and we model the term as an integer.  The viewport width read by
`shouldShowError` is passed in explicitly.
-/

namespace Mortgage

/-- A JavaScript number: either the value NaN or an (idealised) rational. -/
inductive JSNumber where
  | nan : JSNumber
  | num : ℚ → JSNumber
deriving DecidableEq, Repr

/-- The `LoanType` union: `'repayment' | 'interest-only'`. -/
inductive LoanType where
  | repayment : LoanType
  | interestOnly : LoanType
deriving DecidableEq, Repr

/-- The `CalculationResult` record `{ monthly, total }` emitted on success. -/
structure CalculationResult where
  monthly : ℚ
  total : ℚ
deriving DecidableEq, Repr

/-- Characters the amount field accepts: digits, `.` and `,`. -/
def isAmountChar (c : Char) : Bool := c.isDigit || c = '.' || c = ','

/-- `sanitizeInput`: `input.replace(/\s/g, '')`. -/
def sanitizeInput (input : List Char) : List Char :=
  input.filter (fun c => !c.isWhitespace)

/-- `hasInvalidCharacters`: `/[^0-9.,]/.test(input)`. -/
def hasInvalidCharacters (input : List Char) : Bool :=
  input.any (fun c => !isAmountChar c)

/-- `shouldShowError`: `window.innerWidth > 1010`, with the width explicit. -/
def shouldShowError (innerWidth : ℕ) : Bool := decide (1010 < innerWidth)

/-- Numeric value of a digit string (most significant digit first). -/
def digitsToNat (ds : List Char) : ℕ :=
  ds.foldl (fun acc c => 10 * acc + (c.toNat - 48)) 0

/-- JavaScript `parseFloat`, restricted to its use sites here: the argument
never has leading whitespace, a sign, or an exponent (it is built from
digits, `.` and `,`), so `parseFloat` reads leading digits, an optional dot
with following digits, and returns NaN when no digit and no `digit`-dotted
form is found. -/
def parseFloat (s : List Char) : JSNumber :=
  let intPart := s.takeWhile Char.isDigit
  let rest := s.dropWhile Char.isDigit
  match rest with
  | '.' :: rest2 =>
      let fracPart := rest2.takeWhile Char.isDigit
      if intPart.isEmpty && fracPart.isEmpty then JSNumber.nan
      else JSNumber.num ((digitsToNat intPart : ℚ) +
        (digitsToNat fracPart : ℚ) / 10 ^ fracPart.length)
  | _ => if intPart.isEmpty then JSNumber.nan else JSNumber.num (digitsToNat intPart)

/-- First component of `input.split('.')`: the text before the first dot. -/
def splitInteger (input : List Char) : List Char :=
  input.takeWhile (fun c => c ≠ '.')

/-- Second component of `input.split('.')`: the text between the first dot
and the next dot (or the end); `[]` plays the role of both `''` and
`undefined`, which are equally falsy at the use site. -/
def splitDecimal (input : List Char) : List Char :=
  (input.drop ((splitInteger input).length + 1)).takeWhile (fun c => c ≠ '.')

/-- `parseCurrency` from `ContainerLeft.vue`:
`cleanDecimal = input.replace(/,/g, '').replace(/\./g, '')`,
`[integer, decimal] = input.split('.')`, and
`decimal ? parseFloat(integer.replace(/\D/g, '') + '.' + decimal) : parseFloat(cleanDecimal)`. -/
def parseCurrency (input : List Char) : JSNumber :=
  let cleanDecimal := (input.filter (fun c => c ≠ ',')).filter (fun c => c ≠ '.')
  let integer := splitInteger input
  let decimal := splitDecimal input
  if decimal.isEmpty then parseFloat cleanDecimal
  else parseFloat ((integer.filter Char.isDigit) ++ '.' :: decimal)

/-- Outcome of the `watch(amountInput)` handler: the new values of the
`amount` and `showAmountError` refs. -/
structure NormalizeOutcome where
  amount : Option JSNumber
  showAmountError : Bool
deriving DecidableEq, Repr

/-- The `watch(amountInput)` handler (the spec's `normalize`): strips
whitespace, flags invalid characters (showing the banner only on wide
viewports) and nulls the amount, else parses the cleaned text. -/
def watchAmountInput (innerWidth : ℕ) (newValue : List Char) : NormalizeOutcome :=
  let cleanedValue := sanitizeInput newValue
  if hasInvalidCharacters cleanedValue then
    ⟨none, shouldShowError innerWidth⟩
  else
    ⟨some (parseCurrency cleanedValue), false⟩

/-- `Math.pow` on an integer exponent, as rational `zpow`.  (The two agree
whenever the base is nonzero; the base here is `1 + monthlyRate`.) -/
def mathPow (base : ℚ) (exp : ℤ) : ℚ := base ^ exp

/-- `calculateRepayment`: amortising monthly payment. -/
def calculateRepayment (principal monthlyRate : ℚ) (months : ℤ) : ℚ :=
  let discountFactor := mathPow (1 + monthlyRate) (-months)
  (principal * monthlyRate) / (1 - discountFactor)

/-- `calculateInterestOnly`: interest-only monthly payment. -/
def calculateInterestOnly (principal monthlyRate : ℚ) : ℚ :=
  principal * monthlyRate

/-- `INITIAL_TERM = null`. -/
def INITIAL_TERM : Option ℤ := none

/-- `INITIAL_RATE = null`. -/
def INITIAL_RATE : Option ℚ := none

/-- `INITIAL_TYPE = 'repayment'`. -/
def INITIAL_TYPE : LoanType := LoanType.repayment

/-- The refs of `ContainerLeft.vue` that make up the form state.  `term`
and `rate` are number inputs whose cleared state (the falsy `''`) is
modelled as `none`, like `null`. -/
structure CoreState where
  amountInput : List Char
  amount : Option JSNumber
  term : Option ℤ
  rate : Option ℚ
  type : LoanType
  showAmountError : Bool
deriving DecidableEq, Repr

/-- The initial values of the refs. -/
def initialState : CoreState :=
  ⟨[], none, INITIAL_TERM, INITIAL_RATE, INITIAL_TYPE, false⟩

/-- `calculate` from `ContainerLeft.vue`, as the event it emits (if any):
`if (!amount.value || !term.value || !rate.value) return` rejects exactly
the JS-falsy values `null`, `NaN` and `0`; otherwise the monthly payment
is computed by type and `{ monthly, total: monthly * months }` is emitted. -/
def calculate (s : CoreState) : Option CalculationResult :=
  match s.amount, s.term, s.rate with
  | some (JSNumber.num p), some t, some r =>
      if p = 0 ∨ t = 0 ∨ r = 0 then none
      else
        let months : ℤ := t * 12
        let monthlyRate : ℚ := r / 100 / 12
        let monthlyPayment :=
          match s.type with
          | LoanType.repayment => calculateRepayment p monthlyRate months
          | LoanType.interestOnly => calculateInterestOnly p monthlyRate
        some ⟨monthlyPayment, monthlyPayment * (months : ℚ)⟩
  | _, _, _ => none

/-- `clearAll` from `ContainerLeft.vue`, restricted to the state it writes:
it resets the five form refs and leaves everything else (in particular
`showAmountError`) alone.  The DOM blur and the emit are modelled apart. -/
def clearAll (s : CoreState) : CoreState :=
  { s with
      amountInput := []
      amount := none
      term := INITIAL_TERM
      rate := INITIAL_RATE
      type := INITIAL_TYPE }

/-- The two signals `ContainerLeft.vue` can emit. -/
inductive Signal where
  | calculated : CalculationResult → Signal
  | cleared : Signal
deriving DecidableEq, Repr

/-- User actions on the form.  An amount edit carries the viewport width
read by `shouldShowError` at that moment. -/
inductive Event where
  | editAmount : ℕ → List Char → Event
  | editTerm : Option ℤ → Event
  | editRate : Option ℚ → Event
  | setType : LoanType → Event
  | submit : Event
  | clear : Event
deriving DecidableEq, Repr

/-- Effect of an amount edit on the core state: the `v-model` updates the
text and the watcher recomputes `amount` and `showAmountError`. -/
def applyAmountEdit (innerWidth : ℕ) (text : List Char) (s : CoreState) : CoreState :=
  let o := watchAmountInput innerWidth text
  { s with amountInput := text, amount := o.amount, showAmountError := o.showAmountError }

/-- What `ContainerLeft.vue` emits on an event: `calculate` emits
`'calculated'` with the result when it succeeds, `clearAll` emits
`'clear'`, edits emit nothing. -/
def emitted (s : CoreState) : Event → Option Signal
  | Event.submit => (calculate s).map Signal.calculated
  | Event.clear => some Signal.cleared
  | _ => none

/-- Modelled from the spec: the parent component that wires the two views
together is not among the sources; per the spec it stores the emitted
`CalculationResult` (passed to `ContainerRight.vue` as the `result` prop)
and drops it on the `'clear'` signal. -/
structure SysState where
  core : CoreState
  result : Option CalculationResult
deriving DecidableEq, Repr

/-- Modelled from the spec (result half): one user action.  The form
refs evolve per `ContainerLeft.vue`; the stored result is replaced on a
successful calculation, kept on a failed one, and removed on clear. -/
def step (s : SysState) : Event → SysState
  | Event.editAmount w text => { s with core := applyAmountEdit w text s.core }
  | Event.editTerm t => { s with core := { s.core with term := t } }
  | Event.editRate r => { s with core := { s.core with rate := r } }
  | Event.setType ty => { s with core := { s.core with type := ty } }
  | Event.submit =>
      match calculate s.core with
      | some r => { s with result := some r }
      | none => s
  | Event.clear => ⟨clearAll s.core, none⟩

/-- The system right after mount: initial refs, no result. -/
def initSys : SysState := ⟨initialState, none⟩

/-- State after a sequence of user actions. -/
def runTrace (es : List Event) : SysState := es.foldl step initSys

/-- The spec's result invariant, read off a trace: some successful
submission happened and no clear follows it. -/
def SpecHasResult (es : List Event) : Prop :=
  ∃ es1 es2, es = es1 ++ Event.submit :: es2 ∧
    (calculate (runTrace es1).core).isSome = true ∧ Event.clear ∉ es2

/-- The number claim C1 reads off a dot-containing string: the digits of
the text before the last dot form the integer part and the substring
after the last dot is the decimal part. -/
def lastDotSpecValue (s : List Char) : ℚ :=
  (digitsToNat ((s.take
      (s.length - ((s.reverse.takeWhile (fun c => c ≠ '.')).reverse).length - 1)).filter
        Char.isDigit) : ℚ) +
    (digitsToNat ((s.reverse.takeWhile (fun c => c ≠ '.')).reverse) : ℚ) /
      10 ^ ((s.reverse.takeWhile (fun c => c ≠ '.')).reverse).length

/-! ### Helper lemmas -/

theorem amountChar_not_whitespace {c : Char} (h : isAmountChar c = true) :
    c.isWhitespace = false := by
  by_contra hw
  rw [Bool.not_eq_false] at hw
  have hc : ((c = ' ' ∨ c = '\t') ∨ c = '\x0d') ∨ c = '\n' := by
    simpa [Char.isWhitespace] using hw
  rcases hc with ((rfl | rfl) | rfl) | rfl <;> exact absurd h (by decide)

theorem valid_mem_amountChar {s : List Char} (h : hasInvalidCharacters s = false)
    {c : Char} (hc : c ∈ s) : isAmountChar c = true := by
  by_contra hcc
  rw [Bool.not_eq_true] at hcc
  have : hasInvalidCharacters s = true := by
    rw [hasInvalidCharacters, List.any_eq_true]
    exact ⟨c, hc, by rw [hcc]; rfl⟩
  rw [this] at h
  exact Bool.noConfusion h

theorem sanitize_eq_self_of_valid {s : List Char} (h : hasInvalidCharacters s = false) :
    sanitizeInput s = s := by
  rw [sanitizeInput, List.filter_eq_self]
  intro c hc
  rw [amountChar_not_whitespace (valid_mem_amountChar h hc)]
  rfl

theorem takeWhile_append_of_forall {p : Char → Bool} {l : List Char} {a : Char}
    (t : List Char) (hl : ∀ c ∈ l, p c = true) (ha : p a = false) :
    (l ++ a :: t).takeWhile p = l := by
  induction l with
  | nil => simp [List.takeWhile_cons, ha]
  | cons x xs ih =>
    have hx : p x = true := hl x (by simp)
    simp only [List.cons_append, List.takeWhile_cons, hx, if_true]
    rw [ih (fun c hc => hl c (by simp [hc]))]

theorem dropWhile_append_of_forall {p : Char → Bool} {l : List Char} {a : Char}
    (t : List Char) (hl : ∀ c ∈ l, p c = true) (ha : p a = false) :
    (l ++ a :: t).dropWhile p = a :: t := by
  induction l with
  | nil => simp [List.dropWhile_cons, ha]
  | cons x xs ih =>
    have hx : p x = true := hl x (by simp)
    simp only [List.cons_append, List.dropWhile_cons, hx, if_true]
    exact ih (fun c hc => hl c (by simp [hc]))

theorem parseFloat_digits_dot {I D : List Char}
    (hI : ∀ c ∈ I, c.isDigit = true)
    (hne : I ≠ [] ∨ D.takeWhile Char.isDigit ≠ []) :
    parseFloat (I ++ '.' :: D) =
      JSNumber.num ((digitsToNat I : ℚ) +
        (digitsToNat (D.takeWhile Char.isDigit) : ℚ) /
          10 ^ (D.takeWhile Char.isDigit).length) := by
  have hdot : ('.' : Char).isDigit = false := by decide
  have h1 : (I ++ '.' :: D).takeWhile Char.isDigit = I :=
    takeWhile_append_of_forall D hI hdot
  have h2 : (I ++ '.' :: D).dropWhile Char.isDigit = '.' :: D :=
    dropWhile_append_of_forall D hI hdot
  have hcond : (I.isEmpty && (D.takeWhile Char.isDigit).isEmpty) = false := by
    rcases hne with h | h <;> simp [List.isEmpty_iff, h]
  simp only [parseFloat, h1, h2, hcond, Bool.false_eq_true, if_false]

theorem calculate_eq_none_iff (s : CoreState) :
    calculate s = none ↔
      s.amount = none ∨ s.amount = some JSNumber.nan ∨ s.amount = some (JSNumber.num 0) ∨
      s.term = none ∨ s.term = some 0 ∨ s.rate = none ∨ s.rate = some 0 := by
  rcases ha : s.amount with - | a
  · simp [calculate, ha]
  · rcases a with - | q
    · simp [calculate, ha]
    · rcases ht : s.term with - | t
      · simp [calculate, ha, ht]
      · rcases hr : s.rate with - | r
        · simp [calculate, ha, ht, hr]
        · by_cases hc : q = 0 ∨ t = 0 ∨ r = 0
          · simp [calculate, ha, ht, hr, hc]
          · push_neg at hc
            simp [calculate, ha, ht, hr, hc.1, hc.2.1, hc.2.2]

theorem runTrace_concat (es : List Event) (e : Event) :
    runTrace (es ++ [e]) = step (runTrace es) e := by
  simp [runTrace, List.foldl_append]

theorem specHasResult_concat (es : List Event) (e : Event) :
    SpecHasResult (es ++ [e]) ↔
      (e = Event.submit ∧ (calculate (runTrace es).core).isSome = true) ∨
      (e ≠ Event.clear ∧ SpecHasResult es) := by
  constructor
  · rintro ⟨es1, es2, heq, hsucc, hnc⟩
    rcases List.eq_nil_or_concat es2 with rfl | ⟨es2', b, rfl⟩
    · obtain ⟨rfl, hsub⟩ := List.append_inj' heq rfl
      have he : e = Event.submit := by
        have := List.head_eq_of_cons_eq hsub.symm
        exact this.symm
      exact Or.inl ⟨he, hsucc⟩
    · rw [List.concat_eq_append] at heq hnc
      rw [show Event.submit :: (es2' ++ [b]) = (Event.submit :: es2') ++ [b] from rfl,
        ← List.append_assoc] at heq
      obtain ⟨heq1, hb⟩ := List.append_inj' heq rfl
      have hbe : b = e := (List.head_eq_of_cons_eq hb).symm
      subst hbe
      have hnc1 : Event.clear ∉ es2' := fun h => hnc (by simp [h])
      have hne : b ≠ Event.clear := fun h => hnc (by simp [h])
      exact Or.inr ⟨hne, es1, es2', heq1, hsucc, hnc1⟩
  · rintro (⟨rfl, hsucc⟩ | ⟨hne, es1, es2, rfl, hsucc, hnc⟩)
    · exact ⟨es, [], rfl, hsucc, by simp⟩
    · refine ⟨es1, es2 ++ [e], by simp, hsucc, ?_⟩
      intro hmem
      rcases List.mem_append.mp hmem with h | h
      · exact hnc h
      · have hce : Event.clear = e := by simpa using h
        exact hne hce.symm

theorem runTrace_result_iff (es : List Event) :
    ((runTrace es).result.isSome = true) ↔ SpecHasResult es := by
  induction es using List.reverseRecOn with
  | nil =>
    constructor
    · intro h
      simp [runTrace, initSys] at h
    · rintro ⟨es1, es2, heq, -, -⟩
      have := congrArg List.length heq
      simp at this
      omega
  | append_singleton l e ih =>
    rw [runTrace_concat, specHasResult_concat]
    cases e with
    | submit =>
      rcases hc : calculate (runTrace l).core with - | r
      · simpa [step, hc] using ih
      · simp [step, hc]
    | clear => simp [step]
    | editAmount w t => simpa [step] using ih
    | editTerm t => simpa [step] using ih
    | editRate r => simpa [step] using ih
    | setType ty => simpa [step] using ih

/-! ### Claim theorems -/

/-- C1 (counterexample): on the character-valid string `"1.2.3"`, which
contains more than one dot, `parseCurrency` yields `1.2` (it splits at the
FIRST dot), not the value `12.3` the claim assigns by reading the decimal
part after the LAST dot. -/
theorem parseCurrency_multi_dot_counterexample :
    hasInvalidCharacters ['1', '.', '2', '.', '3'] = false ∧
    parseCurrency ['1', '.', '2', '.', '3'] = JSNumber.num (6 / 5) ∧
    lastDotSpecValue ['1', '.', '2', '.', '3'] = 123 / 10 ∧
    (6 / 5 : ℚ) ≠ 123 / 10 := by
  refine ⟨by decide, ?_, ?_, by norm_num⟩
  · have hstep : parseCurrency ['1', '.', '2', '.', '3'] = parseFloat ['1', '.', '2'] := by
      simp +decide [parseCurrency, splitInteger, splitDecimal]
    rw [hstep, show (['1', '.', '2'] : List Char) = ['1'] ++ '.' :: ['2'] from rfl,
      parseFloat_digits_dot (by decide) (Or.inl (by decide))]
    have e2 : (['2'] : List Char).takeWhile Char.isDigit = ['2'] := by decide
    rw [e2]
    have e1 : digitsToNat ['1'] = 1 := by decide
    have e3 : digitsToNat ['2'] = 2 := by decide
    rw [e1, e3]
    norm_num
  · have h1 : (((['1', '.', '2', '.', '3'] : List Char).reverse.takeWhile
        (fun c => c ≠ '.')).reverse) = ['3'] := by decide
    rw [lastDotSpecValue, h1]
    have h2 : ((['1', '.', '2', '.', '3'] : List Char).take
        ((['1', '.', '2', '.', '3'] : List Char).length - (['3'] : List Char).length - 1)).filter
          Char.isDigit = ['1', '2'] := by decide
    rw [h2]
    have h3 : digitsToNat ['1', '2'] = 12 := by decide
    have h4 : digitsToNat ['3'] = 3 := by decide
    rw [h3, h4]
    norm_num

/-- C1 (amended): for a whitespace-free character-valid amount string
containing a dot whose first-dot decimal segment is nonempty (and some
digit occurs in the integer part or at the start of that segment), the
watcher produces the decimal number whose integer part is the digits of
the text before the FIRST dot and whose decimal part is the digits
following the first dot, up to the next non-digit. -/
theorem normalize_first_dot (w : ℕ) (s : List Char)
    (hvalid : hasInvalidCharacters s = false)
    (hdec : splitDecimal s ≠ [])
    (hdig : (splitInteger s).filter Char.isDigit ≠ [] ∨
      (splitDecimal s).takeWhile Char.isDigit ≠ []) :
    watchAmountInput w s = ⟨some (JSNumber.num
      ((digitsToNat ((splitInteger s).filter Char.isDigit) : ℚ) +
        (digitsToNat ((splitDecimal s).takeWhile Char.isDigit) : ℚ) /
          10 ^ ((splitDecimal s).takeWhile Char.isDigit).length)), false⟩ := by
  have hs : sanitizeInput s = s := sanitize_eq_self_of_valid hvalid
  have hD : (splitDecimal s).isEmpty = false := by
    simpa [List.isEmpty_iff] using hdec
  have hI : ∀ c ∈ (splitInteger s).filter Char.isDigit, c.isDigit = true :=
    fun c hc => (List.mem_filter.mp hc).2
  have hne : (splitInteger s).filter Char.isDigit ≠ [] ∨
      (splitDecimal s).takeWhile Char.isDigit ≠ [] := hdig
  rw [watchAmountInput]
  rw [hs, hvalid]
  simp only [Bool.false_eq_true, if_false]
  rw [parseCurrency]
  rw [hD]
  simp only [Bool.false_eq_true, if_false]
  rw [parseFloat_digits_dot hI hne]

/-- C1 (witness): `normalize("1,234.56") = 1234.56`. -/
theorem normalize_first_dot_witness :
    watchAmountInput 0 ['1', ',', '2', '3', '4', '.', '5', '6'] =
      ⟨some (JSNumber.num (30864 / 25)), false⟩ := by
  rw [normalize_first_dot 0 ['1', ',', '2', '3', '4', '.', '5', '6']
    (by decide) (by decide) (Or.inl (by decide))]
  have h1 : (splitInteger ['1', ',', '2', '3', '4', '.', '5', '6']).filter Char.isDigit =
      ['1', '2', '3', '4'] := by decide
  have h2 : (splitDecimal ['1', ',', '2', '3', '4', '.', '5', '6']).takeWhile Char.isDigit =
      ['5', '6'] := by decide
  rw [h1, h2]
  have h3 : digitsToNat ['1', '2', '3', '4'] = 1234 := by decide
  have h4 : digitsToNat ['5', '6'] = 56 := by decide
  rw [h3, h4]
  norm_num

/-- C2 (counterexample): the guard rejects only JS-falsy values, so a
NEGATIVE term passes it and `calculate` does emit a result, contradicting
the claim that any non-positive input is a no-op. -/
theorem calculate_negative_term_emits :
    calculate ⟨[], some (JSNumber.num 1000), some (-1), some 12,
      LoanType.interestOnly, false⟩ = some ⟨10, -120⟩ ∧ (-1 : ℤ) < 0 := by
  constructor
  · norm_num [calculate, calculateInterestOnly]
  · norm_num

/-- C2 (amended): `calculate` produces no result exactly when `amount` is
null, NaN or `0`, or `term` is absent or `0`, or `rate` is absent or `0`
(the JS-falsy values); in that case a submission changes no state and the
previously stored result is left untouched.  Negative values are not
rejected. -/
theorem calculate_noop_iff_falsy :
    (∀ s : CoreState, calculate s = none ↔
      s.amount = none ∨ s.amount = some JSNumber.nan ∨ s.amount = some (JSNumber.num 0) ∨
      s.term = none ∨ s.term = some 0 ∨ s.rate = none ∨ s.rate = some 0) ∧
    (∀ sys : SysState, calculate sys.core = none → step sys Event.submit = sys) := by
  refine ⟨calculate_eq_none_iff, fun sys h => ?_⟩
  simp [step, h]

/-- C2 (witness): submitting the pristine form (everything absent) is a
no-op on the whole system state. -/
theorem calculate_noop_iff_falsy_witness :
    step ⟨initialState, none⟩ Event.submit = ⟨initialState, none⟩ :=
  calculate_noop_iff_falsy.2 ⟨initialState, none⟩ (by decide)

/-- C3: on present strictly positive principal, term and rate the guard
passes, and the emitted monthly payment is
`p * mr / (1 - (1 + mr) ^ (-months))` for the repayment type and `p * mr`
for interest-only, with `mr = rate / 100 / 12` and `months = term * 12`. -/
theorem calculate_monthly_formula (s : CoreState) (p : ℚ) (t : ℤ) (r : ℚ)
    (ha : s.amount = some (JSNumber.num p)) (hp : 0 < p)
    (ht : s.term = some t) (htp : 0 < t)
    (hr : s.rate = some r) (hrp : 0 < r) :
    ∃ res, calculate s = some res ∧
      res.monthly = if s.type = LoanType.repayment
        then p * (r / 100 / 12) / (1 - (1 + r / 100 / 12) ^ (-(t * 12)))
        else p * (r / 100 / 12) := by
  have hcond : ¬(p = 0 ∨ t = 0 ∨ r = 0) := by
    push_neg
    exact ⟨ne_of_gt hp, ne_of_gt htp, ne_of_gt hrp⟩
  cases hty : s.type with
  | repayment =>
    refine ⟨⟨calculateRepayment p (r / 100 / 12) (t * 12),
      calculateRepayment p (r / 100 / 12) (t * 12) * ((t * 12 : ℤ) : ℚ)⟩, ?_, ?_⟩
    · simp [calculate, ha, ht, hr, hcond, hty]
    · simp [calculateRepayment, mathPow]
  | interestOnly =>
    refine ⟨⟨calculateInterestOnly p (r / 100 / 12),
      calculateInterestOnly p (r / 100 / 12) * ((t * 12 : ℤ) : ℚ)⟩, ?_, ?_⟩
    · simp [calculate, ha, ht, hr, hcond, hty]
    · simp [calculateInterestOnly]

/-- C3 (witness): `calculate(100000, 5, 25, interest-only)` emits the
monthly payment `100000 * (5/100/12) = 1250/3 = 416.66…`. -/
theorem calculate_monthly_formula_witness :
    ∃ res, calculate ⟨[], some (JSNumber.num 100000), some 25, some 5,
      LoanType.interestOnly, false⟩ = some res ∧ res.monthly = 1250 / 3 := by
  obtain ⟨res, h1, h2⟩ := calculate_monthly_formula
    ⟨[], some (JSNumber.num 100000), some 25, some 5, LoanType.interestOnly, false⟩
    100000 25 5 rfl (by norm_num) rfl (by norm_num) rfl (by norm_num)
  refine ⟨res, h1, ?_⟩
  rw [h2, if_neg (by decide)]
  norm_num

/-- C4: whenever `calculate` emits a result, the total is exactly the
monthly payment times the term in years times 12. -/
theorem calculate_total_identity (s : CoreState) (t : ℤ) (res : CalculationResult)
    (ht : s.term = some t) (h : calculate s = some res) :
    res.total = res.monthly * (t : ℚ) * 12 := by
  rcases ha : s.amount with - | a
  · simp [calculate, ha] at h
  · rcases a with - | p
    · simp [calculate, ha] at h
    · rcases hr : s.rate with - | r
      · simp [calculate, ha, ht, hr] at h
      · by_cases hc : p = 0 ∨ t = 0 ∨ r = 0
        · simp [calculate, ha, ht, hr, hc] at h
        · simp [calculate, ha, ht, hr, hc] at h
          rw [← h]
          push_cast
          ring

/-- C4 (witness): a concrete successful interest-only calculation with
term 1 year satisfies `total = monthly * 1 * 12`. -/
theorem calculate_total_identity_witness :
    (⟨10, 120⟩ : CalculationResult).total =
      (⟨10, 120⟩ : CalculationResult).monthly * ((1 : ℤ) : ℚ) * 12 :=
  calculate_total_identity
    ⟨[], some (JSNumber.num 1000), some 1, some 12, LoanType.interestOnly, false⟩
    1 ⟨10, 120⟩ rfl (by norm_num [calculate, calculateInterestOnly])

/-- C5 (counterexample): on a narrow viewport (width 800 ≤ 1010) the
invalid input `"12a3"` nulls the principal but the invalid flag is NOT
raised, contradicting the claim that it always is. -/
theorem normalize_invalid_no_flag_on_narrow :
    hasInvalidCharacters (sanitizeInput ['1', '2', 'a', '3']) = true ∧
    watchAmountInput 800 ['1', '2', 'a', '3'] = ⟨none, false⟩ := by
  decide

/-- C5 (amended): when the whitespace-stripped text contains a character
other than digits, `.` and `,`, the watcher nulls the principal and sets
the invalid flag to `shouldShowError`, i.e. raises it exactly when the
viewport is wider than 1010 pixels. -/
theorem normalize_invalid_behavior (w : ℕ) (s : List Char)
    (h : hasInvalidCharacters (sanitizeInput s) = true) :
    watchAmountInput w s = ⟨none, shouldShowError w⟩ := by
  rw [watchAmountInput, h]
  simp

/-- C5 (witness): on a wide viewport the flag is raised for `"12a3"`. -/
theorem normalize_invalid_behavior_witness :
    watchAmountInput 1920 ['1', '2', 'a', '3'] = ⟨none, true⟩ :=
  (normalize_invalid_behavior 1920 ['1', '2', 'a', '3'] (by decide)).trans (by decide)

/-- C6 (counterexample): with rate exactly 0 and the repayment type, the
falsy guard returns early, so the repayment formula is NOT reached: no
zero-denominator division is evaluated, contradicting the claim that the
zero-rate case reaches the division unhandled. -/
theorem calculate_zero_rate_counterexample :
    calculate ⟨[], some (JSNumber.num 100000), some 25, some 0,
      LoanType.repayment, false⟩ = none := by
  decide

/-- C6 (amended): a rate of exactly 0 is JS-falsy, so `calculate` rejects
it in the guard before the repayment formula; the division with zero
denominator is unreachable through a zero rate. -/
theorem calculate_zero_rate_rejected (s : CoreState) (h : s.rate = some 0) :
    calculate s = none :=
  (calculate_eq_none_iff s).2 (Or.inr (Or.inr (Or.inr (Or.inr (Or.inr (Or.inr h))))))

/-- C6 (witness): the amended statement at a concrete zero-rate repayment
state. -/
theorem calculate_zero_rate_rejected_witness :
    calculate ⟨[], some (JSNumber.num 500), some 10, some 0,
      LoanType.repayment, false⟩ = none :=
  calculate_zero_rate_rejected
    ⟨[], some (JSNumber.num 500), some 10, some 0, LoanType.repayment, false⟩ rfl

/-- C7: normalization is a total function (no exceptions by
construction); the empty string parses to NaN, and a NaN principal is
falsy, so submission emits nothing and leaves the system state unchanged. -/
theorem normalize_empty_nan_and_nan_noop (w : ℕ) (sys : SysState)
    (h : sys.core.amount = some JSNumber.nan) :
    watchAmountInput w [] = ⟨some JSNumber.nan, false⟩ ∧
    calculate sys.core = none ∧ step sys Event.submit = sys := by
  have hn : calculate sys.core = none :=
    (calculate_eq_none_iff sys.core).2 (Or.inr (Or.inl h))
  exact ⟨rfl, hn, by simp [step, hn]⟩

/-- C7 (witness): a concrete state whose amount is NaN yields no result. -/
theorem normalize_empty_nan_and_nan_noop_witness :
    calculate ⟨[], some JSNumber.nan, some 25, some 5,
      LoanType.repayment, false⟩ = none :=
  (normalize_empty_nan_and_nan_noop 0
    ⟨⟨[], some JSNumber.nan, some 25, some 5, LoanType.repayment, false⟩, none⟩ rfl).2.1

/-- C8: over any sequence of user actions, a result exists iff some
successful submission occurred with no clear after it; a clear emits the
`'clear'` signal and removes the result entirely; a successful
calculation atomically replaces the stored result. -/
theorem result_lifecycle :
    (∀ es : List Event, ((runTrace es).result.isSome = true) ↔ SpecHasResult es) ∧
    (∀ sys : SysState, (step sys Event.clear).result = none ∧
      emitted sys.core Event.clear = some Signal.cleared) ∧
    (∀ (sys : SysState) (r : CalculationResult), calculate sys.core = some r →
      step sys Event.submit = ⟨sys.core, some r⟩) := by
  refine ⟨runTrace_result_iff, fun sys => ⟨rfl, rfl⟩, fun sys r h => ?_⟩
  simp [step, h]

/-- C8 (witness): filling the form and submitting yields a stored result,
and a successful submission replaces the result on a concrete state. -/
theorem result_lifecycle_witness :
    (runTrace [Event.editAmount 0 ['1', '0', '0', '0'], Event.editTerm (some 1),
      Event.editRate (some 12), Event.setType LoanType.interestOnly,
      Event.submit]).result.isSome = true ∧
    step ⟨⟨[], some (JSNumber.num 1000), some 1, some 12, LoanType.interestOnly, false⟩,
        some ⟨999, 999⟩⟩ Event.submit =
      ⟨⟨[], some (JSNumber.num 1000), some 1, some 12, LoanType.interestOnly, false⟩,
        some ⟨10, 120⟩⟩ := by
  constructor
  · exact (result_lifecycle.1 _).2
      ⟨[Event.editAmount 0 ['1', '0', '0', '0'], Event.editTerm (some 1),
        Event.editRate (some 12), Event.setType LoanType.interestOnly], [],
        rfl, by decide, by decide⟩
  · exact result_lifecycle.2.2 _ ⟨10, 120⟩ (by norm_num [calculate, calculateInterestOnly])

/-- C9: after any amount edit, the invalid flag is raised only if the
stripped text has a character outside digits, `.` and `,`; and whenever
the new text is character-valid the flag is lowered, whatever it was
before. -/
theorem amount_flag_policy (w : ℕ) (text : List Char) (sys : SysState) :
    ((step sys (Event.editAmount w text)).core.showAmountError = true →
      hasInvalidCharacters (sanitizeInput text) = true) ∧
    (hasInvalidCharacters (sanitizeInput text) = false →
      (step sys (Event.editAmount w text)).core.showAmountError = false) := by
  constructor
  · intro h
    by_contra hh
    rw [Bool.not_eq_true] at hh
    simp [step, applyAmountEdit, watchAmountInput, hh] at h
  · intro h
    simp [step, applyAmountEdit, watchAmountInput, h]

/-- C9 (witness): an edit to the valid text `"123"` lowers a previously
raised flag. -/
theorem amount_flag_policy_witness :
    (step ⟨⟨['a'], none, none, none, LoanType.repayment, true⟩, none⟩
      (Event.editAmount 0 ['1', '2', '3'])).core.showAmountError = false :=
  (amount_flag_policy 0 ['1', '2', '3']
    ⟨⟨['a'], none, none, none, LoanType.repayment, true⟩, none⟩).2 (by decide)

/-- C10: `clearAll` resets the amount text to empty, the parsed amount,
term and rate to null, and the type back to `'repayment'`, touches no
other core state (in particular `showAmountError` keeps its value), and
the clear signal is emitted. -/
theorem clearAll_resets_fields (s : CoreState) :
    clearAll s = ⟨[], none, none, none, LoanType.repayment, s.showAmountError⟩ ∧
    emitted s Event.clear = some Signal.cleared :=
  ⟨rfl, rfl⟩

end Mortgage
